import Mathlib

/-!
Verification of the AMP-Webhook service against its design specification.

The development shallowly embeds the core of the repository:

* `AmpValidator` (signature validation, key cache, JWK-to-PEM codec) from
  `src/services/ampValidator.ts`;
* the `validateAmpSignature` middleware from `src/middleware/ampValidation.ts`
  (in particular how it reconstructs the "raw" body it hands to the validator);
* `WebhookService.processSubmission` / `cleanupOldSubmissions` /
  `validateFormData` from `src/services/webhookService.ts`.

Conventions of the embedding:

* Buffers are modelled as `List Nat` with every entry a byte value.
* JavaScript `NaN` arising from `parseInt` is modelled by `Option Int`
  (`none` = NaN); comparisons against NaN are `false`, as in JS.
* Network fetches and RSA verification are external effects; they enter the
  model as explicit parameters (a `FetchOutcome` value and a verification
  oracle), so a run of `validateSignature` is a pure function of those inputs.
* JavaScript numbers are IEEE doubles; timestamps and lengths occurring here
  are far below 2^53, where double arithmetic is exact, so they are modelled
  as exact integers.  The bitwise operators, however, coerce through ToInt32
  and wrap at 2^31; the length-encoding loop models that coercion explicitly.
-/

/-! ### JSON values, JSON.stringify and JSON.parse

The transport layer (express body parsers) hands the middleware a parsed
body object; the middleware then calls `JSON.stringify` on it.  We model
JSON values, JS `JSON.stringify` (integer-valued numbers are enough for the
claims considered) and the standard JSON parse the transport applies to the
raw body bytes. -/

inductive Json where
  | null : Json
  | bool : Bool → Json
  | num : Int → Json
  | str : String → Json
  | arr : List Json → Json
  | obj : List (String × Json) → Json

/-- The left-brace character, U+007B. -/
def openBrace : Char := Char.ofNat 123

/-- The right-brace character, U+007D. -/
def closeBrace : Char := Char.ofNat 125

/-- Escape one character the way `JSON.stringify` escapes characters inside
string literals: quote and backslash get a backslash, the named control
characters use their short escapes, all other control characters use a
four-hex-digit escape. -/
def jsonEscapeChar (c : Char) : List Char :=
  if c = '\"' then ['\\', '\"']
  else if c = '\\' then ['\\', '\\']
  else if c = Char.ofNat 8 then ['\\', 'b']
  else if c = Char.ofNat 9 then ['\\', 't']
  else if c = Char.ofNat 10 then ['\\', 'n']
  else if c = Char.ofNat 12 then ['\\', 'f']
  else if c = Char.ofNat 13 then ['\\', 'r']
  else if c.toNat < 32 then
    ['\\', 'u', '0', '0',
      (Nat.digitChar (c.toNat / 16)), (Nat.digitChar (c.toNat % 16))]
  else [c]

/-- Characters of the `JSON.stringify` rendering of a string literal,
including the surrounding quotes. -/
def jsonQuoteChars (s : String) : List Char :=
  '\"' :: (s.data.flatMap jsonEscapeChar) ++ ['\"']

mutual

/-- Characters of `JSON.stringify(v)` (no spacing argument, as in the
repository): members in insertion order, no whitespace. -/
def jsonStringifyChars : Json → List Char
  | .null => "null".data
  | .bool true => "true".data
  | .bool false => "false".data
  | .num i => (toString i).data
  | .str s => jsonQuoteChars s
  | .arr l => '[' :: jsonStringifyArr l ++ [']']
  | .obj l => openBrace :: jsonStringifyObj l ++ [closeBrace]

/-- Comma-separated renderings of array elements. -/
def jsonStringifyArr : List Json → List Char
  | [] => []
  | [v] => jsonStringifyChars v
  | v :: rest => jsonStringifyChars v ++ ',' :: jsonStringifyArr rest

/-- Comma-separated renderings of object members. -/
def jsonStringifyObj : List (String × Json) → List Char
  | [] => []
  | [(k, v)] => jsonQuoteChars k ++ ':' :: jsonStringifyChars v
  | (k, v) :: rest =>
      jsonQuoteChars k ++ ':' :: jsonStringifyChars v ++ ',' :: jsonStringifyObj rest

end

/-- JS `JSON.stringify` as a `String`-valued function. -/
def jsonStringify (v : Json) : String :=
  String.mk (jsonStringifyChars v)

/-! #### JSON parsing (the transport layer's body parse)

The repository mounts `express.json()` in front of the webhook route
(`src/app.ts`); the raw body bytes are parsed per the JSON grammar before the
middleware ever sees them.  `jsonParse` models that parse for the fragment
with integer-valued numbers (fractions and exponents are IEEE-double
territory and are not needed by any claim). -/

/-- JSON insignificant whitespace. -/
def isJsonWs (c : Char) : Bool :=
  c = ' ' || c = '\t' || c = '\n' || c = '\r'

/-- Drop leading JSON whitespace. -/
def skipWs (cs : List Char) : List Char :=
  cs.dropWhile isJsonWs

/-- Value of a hexadecimal digit, if the character is one. -/
def hexDigitVal (c : Char) : Option Nat :=
  if '0' ≤ c ∧ c ≤ '9' then some (c.toNat - 48)
  else if 'a' ≤ c ∧ c ≤ 'f' then some (c.toNat - 87)
  else if 'A' ≤ c ∧ c ≤ 'F' then some (c.toNat - 55)
  else none

/-- Parse the remainder of a JSON string literal (the opening quote already
consumed), handling the escape sequences of the JSON grammar.  Raw control
characters are rejected, as `JSON.parse` rejects them. -/
def parseStringRest : Nat → List Char → Option (List Char × List Char)
  | 0, _ => none
  | _, [] => none
  | fuel + 1, c :: rest =>
    if c = '\"' then some ([], rest)
    else if c = '\\' then
      match rest with
      | [] => none
      | e :: rest2 =>
        let decoded : Option (Char × List Char) :=
          if e = '\"' then some ('\"', rest2)
          else if e = '\\' then some ('\\', rest2)
          else if e = '/' then some ('/', rest2)
          else if e = 'b' then some (Char.ofNat 8, rest2)
          else if e = 'f' then some (Char.ofNat 12, rest2)
          else if e = 'n' then some (Char.ofNat 10, rest2)
          else if e = 'r' then some (Char.ofNat 13, rest2)
          else if e = 't' then some (Char.ofNat 9, rest2)
          else if e = 'u' then
            match rest2 with
            | h1 :: h2 :: h3 :: h4 :: rest3 =>
              match hexDigitVal h1, hexDigitVal h2, hexDigitVal h3, hexDigitVal h4 with
              | some a, some b, some c3, some d =>
                some (Char.ofNat (((a * 16 + b) * 16 + c3) * 16 + d), rest3)
              | _, _, _, _ => none
            | _ => none
          else none
        match decoded with
        | some (ch, rest') =>
          match parseStringRest fuel rest' with
          | some (cs, rem) => some (ch :: cs, rem)
          | none => none
        | none => none
    else if c.toNat < 32 then none
    else
      match parseStringRest fuel rest with
      | some (cs, rem) => some (c :: cs, rem)
      | none => none

/-- Parse an optionally signed run of decimal digits (the JSON integer
grammar; a leading zero is only valid alone, as in JSON). -/
def parseJsonInt (cs : List Char) : Option (Int × List Char) :=
  let minus : Bool := cs.headD ' ' = '-'
  let afterSign := if minus then cs.tail else cs
  let digits := afterSign.takeWhile Char.isDigit
  let rest := afterSign.dropWhile Char.isDigit
  if digits = [] then none
  else if digits.length > 1 ∧ digits.headD '0' = '0' then none
  else
    let n : Nat := digits.foldl (fun a c => a * 10 + (c.toNat - 48)) 0
    some (if minus then -(n : Int) else (n : Int), rest)

mutual

/-- Parse one JSON value, whitespace already skipped.  Numbers with a
fraction or exponent part are outside the modelled fragment and fail. -/
def parseVal : Nat → List Char → Option (Json × List Char)
  | 0, _ => none
  | fuel + 1, cs =>
    match cs with
    | [] => none
    | c :: rest =>
      if c = '\"' then
        match parseStringRest (rest.length + 1) rest with
        | some (s, rem) => some (.str (String.mk s), rem)
        | none => none
      else if c = openBrace then
        match skipWs rest with
        | d :: rem' =>
          if d = closeBrace then some (.obj [], rem')
          else
            match parseMembers fuel (skipWs rest) with
            | some (ms, rem) =>
              match skipWs rem with
              | e :: rem2 => if e = closeBrace then some (.obj ms, rem2) else none
              | [] => none
            | none => none
        | [] => none
      else if c = '[' then
        match skipWs rest with
        | ']' :: rem' => some (.arr [], rem')
        | _ =>
          match parseElems fuel (skipWs rest) with
          | some (vs, rem) =>
            match skipWs rem with
            | ']' :: rem2 => some (.arr vs, rem2)
            | _ => none
          | none => none
      else if cs.take 4 = ['t', 'r', 'u', 'e'] then some (.bool true, cs.drop 4)
      else if cs.take 5 = ['f', 'a', 'l', 's', 'e'] then some (.bool false, cs.drop 5)
      else if cs.take 4 = ['n', 'u', 'l', 'l'] then some (.null, cs.drop 4)
      else
        match parseJsonInt cs with
        | some (i, rem) =>
          match rem with
          | d :: _ => if d = '.' ∨ d = 'e' ∨ d = 'E' then none else some (.num i, rem)
          | [] => some (.num i, [])
        | none => none

/-- Parse a non-empty comma-separated list of `"key": value` members. -/
def parseMembers : Nat → List Char → Option (List (String × Json) × List Char)
  | 0, _ => none
  | fuel + 1, cs =>
    match cs with
    | '\"' :: rest =>
      match parseStringRest (rest.length + 1) rest with
      | some (k, rem) =>
        match skipWs rem with
        | ':' :: rem2 =>
          match parseVal fuel (skipWs rem2) with
          | some (v, rem3) =>
            match skipWs rem3 with
            | ',' :: rem4 =>
              match parseMembers fuel (skipWs rem4) with
              | some (ms, rem5) => some ((String.mk k, v) :: ms, rem5)
              | none => none
            | rem4 => some ([(String.mk k, v)], rem4)
          | none => none
        | _ => none
      | none => none
    | _ => none

/-- Parse a non-empty comma-separated list of array elements. -/
def parseElems : Nat → List Char → Option (List Json × List Char)
  | 0, _ => none
  | fuel + 1, cs =>
    match parseVal fuel cs with
    | some (v, rem) =>
      match skipWs rem with
      | ',' :: rem2 =>
        match parseElems fuel (skipWs rem2) with
        | some (vs, rem3) => some (v :: vs, rem3)
        | none => none
      | rem2 => some ([v], rem2)
    | none => none

end

/-- The JSON parse the transport layer applies to the raw request body:
`JSON.parse` restricted to the integer-numbered fragment.  Returns `none`
when the body is not valid JSON of that fragment. -/
def jsonParse (s : String) : Option Json :=
  match parseVal (s.length + 1) (skipWs s.data) with
  | some (v, rem) => if skipWs rem = [] then some v else none
  | none => none

/-! ### The AMP validator (`src/services/ampValidator.ts`)

`AmpValidator` keeps a map of public keys (keyId → PEM string), refreshes it
from a remote endpoint at most every 24 hours, and verifies request
signatures against every cached key. -/

namespace AmpValidator

/-- Key-cache TTL in milliseconds (`KEY_CACHE_TTL = 24 * 60 * 60 * 1000`). -/
def KEY_CACHE_TTL : Int := 24 * 60 * 60 * 1000

/-- Freshness window in milliseconds (`maxTimeDiff = 5 * 60 * 1000`). -/
def maxTimeDiff : Int := 5 * 60 * 1000

/-! #### ASN.1 helpers (`encodeLength`, `createASN1Integer`,
`createRSAPublicKeyDER`) -/

/-- The ECMAScript ToInt32 coercion applied by the bitwise operators: the
value modulo `2^32`, reinterpreted as a signed 32-bit integer. -/
def toInt32 (x : Int) : Int :=
  let r := x % 4294967296
  if r < 2147483648 then r else r - 4294967296

/-- JS `temp & 0xff`: both operands coerce through ToInt32 and the low
eight bits of the 32-bit pattern are returned (always non-negative). -/
def jsAnd255 (x : Int) : Int :=
  toInt32 x % 256

/-- JS `temp >> 8`: ToInt32, then an arithmetic (sign-extending) right
shift, i.e. floor division of the signed 32-bit value by 256. -/
def jsShr8 (x : Int) : Int :=
  Int.fdiv (toInt32 x) 256

/-- The `while (temp > 0)` loop of `encodeLength`: repeatedly
`unshift(temp & 0xff)` and `temp = temp >> 8`.  Because `&` and `>>`
coerce through ToInt32, the loop wraps once `temp` reaches `2^31`: the
shift of such a value is negative and stops the loop after one byte. -/
def lengthBytesLoop (temp : Int) : List Nat :=
  if h : 0 < temp then
    lengthBytesLoop (jsShr8 temp) ++ [(jsAnd255 temp).toNat]
  else []
termination_by temp.toNat
decreasing_by
  simp only [jsShr8, toInt32, Int.fdiv_eq_ediv _ (by norm_num : (0 : Int) ≤ 256)]
  split
  · omega
  · omega

/-- The `lengthBytes` array after the loop, for a non-negative length. -/
def lengthBytes (n : Nat) : List Nat :=
  lengthBytesLoop (n : Int)

/-- ASN.1 length encoding from the source: one byte below `0x80`, otherwise
`0x80 | count` followed by the big-endian bytes of the length. -/
def encodeLength (length : Nat) : List Nat :=
  if length < 0x80 then [length]
  else (0x80 ||| (lengthBytes length).length) :: lengthBytes length

/-- ASN.1 INTEGER construction from the source: prepend a zero byte when the
first byte has its high bit set (on an empty buffer, `value[0]` is
`undefined` and `undefined >= 0x80` is `false`, so no padding and no error),
then tag `0x02` and the encoded length. -/
def createASN1Integer (value : List Nat) : List Nat :=
  let paddedValue := if 0x80 ≤ value.headD 0 then 0 :: value else value
  0x02 :: encodeLength paddedValue.length ++ paddedValue

/-- The fixed `rsaEncryption` AlgorithmIdentifier bytes from the source. -/
def rsaOID : List Nat :=
  [0x30, 0x0d, 0x06, 0x09, 0x2a, 0x86, 0x48, 0x86, 0xf7, 0x0d, 0x01, 0x01, 0x01, 0x05, 0x00]

/-- SubjectPublicKeyInfo construction from the source: algorithm identifier,
then a BIT STRING wrapping a SEQUENCE of the two INTEGERs. -/
def createRSAPublicKeyDER (n e : List Nat) : List Nat :=
  let nInteger := createASN1Integer n
  let eInteger := createASN1Integer e
  let innerSequence :=
    0x30 :: encodeLength (nInteger.length + eInteger.length) ++ nInteger ++ eInteger
  let bitString :=
    0x03 :: encodeLength (innerSequence.length + 1) ++ 0x00 :: innerSequence
  0x30 :: encodeLength (rsaOID.length + bitString.length) ++ rsaOID ++ bitString

/-! #### Base64 (Node `Buffer` conversions used by `jwkToPem`) -/

/-- Character of a six-bit value in the standard base64 alphabet. -/
def b64Char (n : Nat) : Char :=
  if n < 26 then Char.ofNat (65 + n)
  else if n < 52 then Char.ofNat (97 + (n - 26))
  else if n < 62 then Char.ofNat (48 + (n - 52))
  else if n = 62 then '+'
  else '/'

/-- Six-bit value of a base64 character; accepts both the standard and the
url-safe alphabet, as Node's lenient decoder does. -/
def b64Val (c : Char) : Option Nat :=
  if 'A' ≤ c ∧ c ≤ 'Z' then some (c.toNat - 65)
  else if 'a' ≤ c ∧ c ≤ 'z' then some (c.toNat - 97 + 26)
  else if '0' ≤ c ∧ c ≤ '9' then some (c.toNat - 48 + 52)
  else if c = '+' ∨ c = '-' then some 62
  else if c = '/' ∨ c = '_' then some 63
  else none

/-- Reassemble bytes from six-bit groups; a trailing lone sextet carries
fewer than eight bits and yields no byte, as in Node. -/
def bytesOfSextets : List Nat → List Nat
  | s1 :: s2 :: s3 :: s4 :: rest =>
      (s1 * 4 + s2 / 16) :: (s2 % 16 * 16 + s3 / 4) :: (s3 % 4 * 64 + s4) ::
        bytesOfSextets rest
  | [s1, s2, s3] => [s1 * 4 + s2 / 16, s2 % 16 * 16 + s3 / 4]
  | [s1, s2] => [s1 * 4 + s2 / 16]
  | _ => []

/-- Node's lenient base64 decoding (`Buffer.from(s, 'base64')` /
`'base64url'`): characters outside the alphabet, padding included, are
ignored. -/
def b64Decode (s : String) : List Nat :=
  bytesOfSextets (s.data.filterMap b64Val)

/-- Standard base64 encoding with padding (`buffer.toString('base64')`). -/
def b64Encode : List Nat → List Char
  | b1 :: b2 :: b3 :: rest =>
      b64Char (b1 / 4) :: b64Char (b1 % 4 * 16 + b2 / 16) ::
        b64Char (b2 % 16 * 4 + b3 / 64) :: b64Char (b3 % 64) :: b64Encode rest
  | [b1, b2] =>
      [b64Char (b1 / 4), b64Char (b1 % 4 * 16 + b2 / 16), b64Char (b2 % 16 * 4), '=']
  | [b1] => [b64Char (b1 / 4), b64Char (b1 % 4 * 16), '=', '=']
  | [] => []

/-- Structural worker for `chunks64`; the fuel is an upper bound on the
number of chunks, so `l.length` always suffices. -/
def chunks64Go : Nat → List Char → List String
  | 0, _ => []
  | _, [] => []
  | fuel + 1, c :: rest =>
      String.mk ((c :: rest).take 64) :: chunks64Go fuel ((c :: rest).drop 64)

/-- Split into chunks of at most 64 characters (`match(/.{1,64}/g)`). -/
def chunks64 (l : List Char) : List String :=
  chunks64Go l.length l

/-- A key descriptor from the remote key document (`{kid, n, e}` with the
two integers base64url-encoded). -/
structure KeyEntry where
  kid : String
  n : String
  e : String

/-- JS `Array.prototype.join('\n')`. -/
def joinLines : List String → String
  | [] => ""
  | [s] => s
  | s :: rest => s ++ "\n" ++ joinLines rest

/-- JWK-to-PEM conversion from the source: decode the two base64url
integers, build the DER structure, base64-encode it and wrap it in PEM
armor lines of 64 characters. -/
def jwkToPem (jwk : KeyEntry) : String :=
  let n := b64Decode jwk.n
  let e := b64Decode jwk.e
  let publicKeyDer := createRSAPublicKeyDER n e
  let publicKeyBase64 := b64Encode publicKeyDer
  joinLines
    (["-----BEGIN PUBLIC KEY-----"] ++ chunks64 publicKeyBase64 ++
      ["-----END PUBLIC KEY-----"])

end AmpValidator

namespace AmpValidator

/-! #### JS `parseInt` and NaN arithmetic -/

/-- JavaScript WhiteSpace / LineTerminator characters stripped by
`parseInt` (the common ones; the exotic Unicode spaces are omitted as no
claim touches them). -/
def isJsWs (c : Char) : Bool :=
  c = ' ' || c = '\t' || c = '\n' || c = '\r' || c = Char.ofNat 11 || c = Char.ofNat 12

/-- JS `parseInt(s)` with no radix argument: strip leading whitespace, read
an optional sign, then either a `0x`/`0X` hexadecimal literal or a run of
decimal digits; the longest valid prefix is taken and `NaN` (here `none`)
is returned when no digit is found.  The double-precision rounding applied
to enormous literals is not modelled; all timestamps of interest are exact
in a double. -/
def jsParseInt (s : String) : Option Int :=
  let cs := s.data.dropWhile isJsWs
  let minus : Bool := cs.headD ' ' = '-'
  let afterSign := if minus ∨ cs.headD ' ' = '+' then cs.tail else cs
  let (base, cs2) :=
    match afterSign with
    | '0' :: 'x' :: tl => (16, tl)
    | '0' :: 'X' :: tl => (16, tl)
    | _ => (10, afterSign)
  let isDig : Char → Bool := fun c =>
    if base = 16 then (hexDigitVal c).isSome else c.isDigit
  let digitVal : Char → Nat := fun c => (hexDigitVal c).getD 0
  let digits := cs2.takeWhile isDig
  if digits = [] then none
  else
    let n : Nat := digits.foldl (fun a c => a * base + digitVal c) 0
    some (if minus then -(n : Int) else (n : Int))

/-- JS `>` where the left operand may be NaN: any comparison against NaN is
false. -/
def jsGtNaN (a : Option Int) (b : Int) : Bool :=
  match a with
  | none => false
  | some x => b < x

/-- String prefix test (`signature.startsWith('rsa-sha256=')`), computed on
the character lists so that it evaluates by reduction. -/
def strStartsWith (s pre : String) : Bool :=
  pre.data.isPrefixOf s.data

/-- Drop the first `n` characters of a string, computed on the character
list (`signature.replace('rsa-sha256=', '')` removes the leading
eleven-character prefix once the prefix test has succeeded). -/
def strDrop (s : String) (n : Nat) : String :=
  String.mk (s.data.drop n)

/-! #### Validator state and the key refresh -/

/-- Mutable state of the singleton `AmpValidator`: the keyId → PEM map in
insertion order, and the time of the last successful key fetch. -/
structure ValidatorState where
  publicKeys : List (String × String)
  lastKeyFetch : Int

/-- Outcome of the outbound HTTPS fetch of the signing keys, an external
effect passed into the model: either any throwing failure (network error,
non-2xx status, body that is not `{keys: [...]}`), or the parsed `keys`
array. -/
inductive FetchOutcome where
  | fail (msg : String)
  | success (keys : List KeyEntry)

/-- JS truthiness of the string fields guarding `keyData.kid && keyData.n
&& keyData.e`: the empty string is falsy. -/
def strTruthy (s : String) : Bool := s ≠ ""

/-- One run of `ensurePublicKeys`: skip when keys are present and fresh;
otherwise fetch.  A fetch failure with an empty key map throws (modelled as
`Except.error` with the thrown message); with a non-empty map it only logs.
A successful fetch replaces the map with the convertible entries and stamps
`lastKeyFetch`.  The returned flag records whether an outbound fetch was
attempted. -/
def ensurePublicKeys (st : ValidatorState) (now : Int) (fetch : FetchOutcome) :
    Except String (ValidatorState × Bool) :=
  if 0 < st.publicKeys.length ∧ now - st.lastKeyFetch < KEY_CACHE_TTL then
    .ok (st, false)
  else
    match fetch with
    | .fail msg =>
      if st.publicKeys.length = 0 then
        .error ("Cannot validate AMP signatures: " ++ msg)
      else
        .ok (st, true)
    | .success keys =>
      let newKeys := keys.filterMap fun k =>
        if strTruthy k.kid && strTruthy k.n && strTruthy k.e then
          some (k.kid, jwkToPem k)
        else none
      .ok ({ publicKeys := newKeys, lastKeyFetch := now }, true)

/-! #### validateSignature -/

/-- Result of `validateSignature`, one constructor per `return` site of the
source (the source distinguishes these outcomes only through its `error`
strings). -/
inductive AmpResult where
  | valid (keyId : String)
  | invalidFormat
  | timestampExpired
  | allKeysFailed
  | validationError (msg : String)
deriving DecidableEq

/-- Everything observable about one run of `validateSignature`: its result,
the validator state afterwards, whether an outbound key fetch was
attempted, and how many per-key `verifier.verify` calls were made. -/
structure ValidationRun where
  result : AmpResult
  state : ValidatorState
  fetched : Bool
  verifyAttempts : Nat

/-- Walk the key map in order and return the keyId of the first key the
verification oracle accepts, together with the number of verify calls
made. -/
def firstVerifying (verify : String → String → List Nat → Bool)
    (message : String) (sig : List Nat) :
    List (String × String) → Option String × Nat
  | [] => (none, 0)
  | (keyId, pem) :: rest =>
    if verify pem message sig then (some keyId, 1)
    else
      let (r, n) := firstVerifying verify message sig rest
      (r, n + 1)

/-- The signature-verification phase of `validateSignature` (everything
after the format and freshness guards): refresh keys if needed, build the
canonical message `timestamp + body`, try every cached key. -/
def keyPhase (st : ValidatorState) (now : Int) (fetch : FetchOutcome)
    (verify : String → String → List Nat → Bool)
    (body timestamp : String) (signatureBuffer : List Nat) : ValidationRun :=
  match ensurePublicKeys st now fetch with
  | .error msg =>
    { result := .validationError ("Validation error: " ++ msg), state := st,
      fetched := true, verifyAttempts := 0 }
  | .ok (st', fetched) =>
    let message := timestamp ++ body
    match firstVerifying verify message signatureBuffer st'.publicKeys with
    | (some keyId, n) =>
      { result := .valid keyId, state := st', fetched := fetched, verifyAttempts := n }
    | (none, n) =>
      { result := .allKeysFailed, state := st', fetched := fetched, verifyAttempts := n }

/-- One run of `AmpValidator.validateSignature(body, signature, timestamp)`
at clock time `now`, with the network outcome and the RSA-SHA256
verification primitive supplied as parameters.  Follows the source: format
guard, then the five-minute freshness guard over `parseInt(timestamp) *
1000` (a NaN difference passes the guard), then `keyPhase`. -/
def validateSignature (st : ValidatorState) (now : Int) (fetch : FetchOutcome)
    (verify : String → String → List Nat → Bool)
    (body signature timestamp : String) : ValidationRun :=
  if signature = "" ∨ ¬ strStartsWith signature "rsa-sha256=" then
    { result := .invalidFormat, state := st, fetched := false, verifyAttempts := 0 }
  else
    let signatureBuffer := b64Decode (strDrop signature 11)
    let timestampMs := (jsParseInt timestamp).map (· * 1000)
    let timeDiff := timestampMs.map (fun t => |now - t|)
    if jsGtNaN timeDiff maxTimeDiff then
      { result := .timestampExpired, state := st, fetched := false, verifyAttempts := 0 }
    else
      keyPhase st now fetch verify body timestamp signatureBuffer

end AmpValidator

/-! ### The middleware (`src/middleware/ampValidation.ts`)

`validateAmpSignature` does not keep the raw transmitted bytes: it computes
`req.body ? JSON.stringify(req.body) : ''` from the already-parsed body and
passes that string to the validator as its `body` argument. -/

/-- JS truthiness of a parsed JSON value (`req.body ? ... : ...`). -/
def jsTruthy : Json → Bool
  | .null => false
  | .bool b => b
  | .num i => i ≠ 0
  | .str s => s ≠ ""
  | .arr _ => true
  | .obj _ => true

/-- The `rawBody` string the middleware builds from the parsed request body
(`undefined` body modelled as `none`). -/
def middlewareRawBody (body : Option Json) : String :=
  match body with
  | none => ""
  | some v => if jsTruthy v then jsonStringify v else ""

/-- The canonical message the validator hashes (`message = timestamp +
body`, `src/services/ampValidator.ts` line 54). -/
def canonicalMessage (timestamp body : String) : String :=
  timestamp ++ body

/-- Modelled from the spec: the canonical message the design requires, the
timestamp representation concatenated with the exact raw body bytes as
transmitted. -/
def specCanonicalMessage (timestamp rawBody : String) : String :=
  timestamp ++ rawBody

/-- The canonical message the code actually verifies for a request whose
raw body bytes parse to `body?`: the middleware's reconstructed string fed
into `canonicalMessage`. -/
def codeCanonicalMessage (timestamp : String) (body? : Option Json) : String :=
  canonicalMessage timestamp (middlewareRawBody body?)

/-! ### The submission store (`src/services/webhookService.ts`) -/

/-- One stored submission; only the fields the claims touch are modelled
(`id`, the untouched `formData`, and the `timestamp` assigned at insert). -/
structure Submission where
  id : String
  formData : Json
  timestamp : Int

namespace WebhookService

/-- In-memory limit (`maxSubmissions = 10000`). -/
def maxSubmissions : Nat := 10000

/-- Ordering used by `cleanupOldSubmissions`' comparator
`a[1].timestamp - b[1].timestamp`. -/
def byTimestamp (a b : Submission) : Prop :=
  a.timestamp ≤ b.timestamp

instance : DecidableRel byTimestamp := fun a b => Int.decLe a.timestamp b.timestamp

instance : IsTotal Submission byTimestamp :=
  ⟨fun a b => Int.le_total a.timestamp b.timestamp⟩

instance : IsTrans Submission byTimestamp :=
  ⟨fun _ _ _ h1 h2 => le_trans h1 h2⟩

/-- The exact double value of the literal `0.1`. -/
def double01Num : Nat := 3602879701896397

/-- JS `Math.floor(n * 0.1)`: `0.1` is exactly `3602879701896397 / 2^55` as
a double; for every count a submission map can reach, the floor of the
exact product equals the floor of the rounded double product, so the exact
product is used. -/
def jsFloorTenth (n : Nat) : Nat :=
  n * double01Num / 2 ^ 55

/-- JS `Map.set(id, sub)`: replace in place when the key exists, append
otherwise. -/
def mapSet (store : List Submission) (sub : Submission) : List Submission :=
  if store.any (fun s => s.id = sub.id) then
    store.map (fun s => if s.id = sub.id then sub else s)
  else store ++ [sub]

/-- `cleanupOldSubmissions`: stable-sort the entries by timestamp ascending
(JS `Array.prototype.sort` is stable; modelled by insertion sort), delete
the oldest `Math.floor(length * 0.1)` keys from the map. -/
def cleanupOldSubmissions (store : List Submission) : List Submission :=
  let sorted := List.insertionSort byTimestamp store
  let toRemove := jsFloorTenth store.length
  let removedIds := (sorted.take toRemove).map Submission.id
  store.filter (fun s => decide (s.id ∉ removedIds))

/-- The JS `typeof x !== 'object' || !x` guard: only objects and arrays
pass (`null`, booleans, numbers and strings all throw). -/
def isObjectLike : Json → Bool
  | .obj _ => true
  | .arr _ => true
  | _ => false

/-- `Object.keys(x).length` for the values that reach it. -/
def jsKeyCount : Json → Nat
  | .obj l => l.length
  | .arr l => l.length
  | _ => 0

/-- `validateFormData`: reject non-objects, empty form data and serialized
data over 100000 characters.  The dangerous-content pattern loop of the
source only emits a log warning and cannot alter the outcome, so it does
not appear here; the patterns themselves are modelled separately below for
the statements about them. -/
def validateFormData (formData : Json) : Except String Unit :=
  if ¬ (jsTruthy formData ∧ isObjectLike formData = true) then
    .error "Form data must be an object"
  else if jsKeyCount formData = 0 then
    .error "Form data cannot be empty"
  else if 100000 < (jsonStringify formData).length then
    .error "Form data too large"
  else
    .ok ()

/-- `processSubmission`: validate the form data, store the new record
unchanged under a fresh id, and evict the oldest tenth when the map exceeds
`maxSubmissions`.  The asynchronous persistence write and the
`processFormContent` analysis only log and never affect the store or the
result, so they are not modelled. -/
def processSubmission (store : List Submission) (id : String) (now : Int)
    (formData : Json) : Except String (Submission × List Submission) :=
  match validateFormData formData with
  | .error e => .error ("Submission processing failed: " ++ e)
  | .ok _ =>
    let submission : Submission := ⟨id, formData, now⟩
    let store1 := mapSet store submission
    let store2 :=
      if maxSubmissions < store1.length then cleanupOldSubmissions store1 else store1
    .ok (submission, store2)

end WebhookService

/-! ### The dangerous-content patterns of `validateFormData`

The source tests `JSON.stringify(formData)` against three regexes —
`/<script[^>]*>.*?<\/script>/gi`, `/javascript:/gi` and `/on\w+\s*=/gi` —
and only logs a warning on a match.  The matchers are modelled here so the
statements about them can quantify over matching form data. -/

namespace WebhookService

/-- Case-insensitive prefix test (the `i` regex flag). -/
def ciStartsWith : List Char → List Char → Bool
  | p :: ps, c :: cs => (p.toLower == c.toLower) && ciStartsWith ps cs
  | [], _ => true
  | _ :: _, [] => false

/-- Case-insensitive substring test. -/
def containsCI (pat : List Char) : List Char → Bool
  | [] => ciStartsWith pat []
  | c :: cs => ciStartsWith pat (c :: cs) || containsCI pat cs

/-- Lazy `.*?<\/script>`: the dot does not match line terminators, so the
closing tag must occur before any newline. -/
def scriptSeekClose : List Char → Bool
  | [] => false
  | c :: cs =>
    if ciStartsWith "</script>".data (c :: cs) then true
    else if c = '\n' ∨ c = '\r' then false
    else scriptSeekClose cs

/-- After `<script`, the regex `[^>]*>` can only consume up to the first
`>`. -/
def scriptAfterOpen : List Char → Bool
  | [] => false
  | c :: cs => if c = '>' then scriptSeekClose cs else scriptAfterOpen cs

/-- Match of `/<script[^>]*>.*?<\/script>/i` anywhere in the text. -/
def jsTestScriptTag : List Char → Bool
  | [] => false
  | c :: cs =>
    (ciStartsWith "<script".data (c :: cs) && scriptAfterOpen ((c :: cs).drop 7)) ||
      jsTestScriptTag cs

/-- Regex `\w`. -/
def isWordChar (c : Char) : Bool :=
  c.isAlpha || c.isDigit || c = '_'

/-- Regex `\s` (the common whitespace class members). -/
def isRegexSpace (c : Char) : Bool :=
  c = ' ' || c = '\t' || c = '\n' || c = '\r' || c = Char.ofNat 11 || c = Char.ofNat 12

/-- Match of `/on\w+\s*=/i` at the head of the text: `on`, at least one
word character, optional whitespace, `=` (backtracking inside `\w+` can
never help, since a word character is neither whitespace nor `=`). -/
def eventHandlerAt : List Char → Bool
  | o :: n :: rest =>
    (o.toLower == 'o') && (n.toLower == 'n') &&
      (!(rest.takeWhile isWordChar).isEmpty) &&
      (match (rest.dropWhile isWordChar).dropWhile isRegexSpace with
        | '=' :: _ => true
        | _ => false)
  | _ => false

/-- Match of `/on\w+\s*=/i` anywhere in the text. -/
def jsTestEventHandler : List Char → Bool
  | [] => false
  | c :: cs => eventHandlerAt (c :: cs) || jsTestEventHandler cs

/-- The `dangerousPatterns` test of `validateFormData`, applied to the
serialized form data: true when any of the three regexes matches. -/
def containsDangerousContent (dataString : String) : Bool :=
  jsTestScriptTag dataString.data ||
    containsCI "javascript:".data dataString.data ||
    jsTestEventHandler dataString.data

end WebhookService

/-! ### Interleaving model of concurrent `ensurePublicKeys` calls (C8)

Node's event loop runs each async function synchronously up to its next
`await`.  A call of `ensurePublicKeys` therefore decomposes into two atomic
steps: the staleness check followed (when stale) by issuing the outbound
fetch, all before the `await fetch` suspension; and, after the response
arrives, installing the keys and stamping `lastKeyFetch`.  The model runs
two concurrent callers under an explicit schedule and counts outbound
fetches. -/

namespace AmpValidator

/-- Progress of one `ensurePublicKeys` caller. -/
inductive CallerPc where
  | ready
  | installing
  | finished
deriving DecidableEq

/-- Shared validator state as seen by concurrent callers, plus the count of
outbound fetches issued. -/
structure ConcCache where
  publicKeysSize : Nat
  lastKeyFetch : Int
  fetchCount : Nat
deriving DecidableEq

/-- One atomic step of one caller at clock `now`, where a completed fetch
installs `fetchedKeys` keys: from `ready`, either return fresh or issue the
fetch and suspend; from `installing`, install the response. -/
def callerStep (now : Int) (fetchedKeys : Nat) :
    ConcCache × CallerPc → ConcCache × CallerPc
  | (c, .ready) =>
    if 0 < c.publicKeysSize ∧ now - c.lastKeyFetch < KEY_CACHE_TTL then
      (c, .finished)
    else
      ({ c with fetchCount := c.fetchCount + 1 }, .installing)
  | (c, .installing) =>
    ({ c with publicKeysSize := fetchedKeys, lastKeyFetch := now }, .finished)
  | (c, .finished) => (c, .finished)

/-- Joint state of two concurrent callers. -/
structure TwoCallers where
  cache : ConcCache
  pc0 : CallerPc
  pc1 : CallerPc
deriving DecidableEq

/-- Run the two callers under a schedule (`false` steps caller 0, `true`
steps caller 1). -/
def runSchedule (now : Int) (fetchedKeys : Nat) :
    List Bool → TwoCallers → TwoCallers
  | [], s => s
  | b :: rest, s =>
    if b then
      let (c, pc) := callerStep now fetchedKeys (s.cache, s.pc1)
      runSchedule now fetchedKeys rest ⟨c, s.pc0, pc⟩
    else
      let (c, pc) := callerStep now fetchedKeys (s.cache, s.pc0)
      runSchedule now fetchedKeys rest ⟨c, pc, s.pc1⟩

/-- Both callers about to run `ensurePublicKeys` over a cache whose single
key set has just reached the 24-hour TTL. -/
def staleStart : TwoCallers :=
  ⟨⟨1, 0, 0⟩, .ready, .ready⟩

end AmpValidator

/-! ### Specification-side definitions (refinement targets) and concrete
fixtures used by the witnesses -/

namespace AmpValidator

/-- Modelled from the spec: the minimal big-endian byte representation of a
number ("the length's bytes, most significant first"). -/
def specBigEndian (n : Nat) : List Nat :=
  (Nat.digits 256 n).reverse

/-- Modelled from the spec: "values under 128 use a single length byte;
larger values use the long form (a byte whose top bit is set holding the
byte-count, followed by the length's bytes, most significant first)". -/
def specEncodeLength (n : Nat) : List Nat :=
  if n < 128 then [n]
  else (128 + (specBigEndian n).length) :: specBigEndian n

/-- Modelled from the spec: the ASN.1 INTEGER encoding the claim describes —
tag byte `0x02`, then the encoded length, then the value prefixed with
exactly one zero byte when the value's first byte is `0x80` or greater. -/
def specASN1Integer (v : List Nat) : List Nat :=
  let padded := if 128 ≤ v.headD 0 then 0 :: v else v
  0x02 :: specEncodeLength padded.length ++ padded

end AmpValidator

namespace WebhookService

/-- Witness fixture: the id of the `i`-th prefilled submission. -/
def wId (i : Nat) : String := String.mk (List.replicate i 'a')

/-- Witness fixture: a store of `n` submissions with distinct ids and
strictly increasing timestamps `0, 1, …, n-1`. -/
def wStore (n : Nat) : List Submission :=
  (List.range n).map (fun i => ⟨wId i, Json.obj [], (i : Int)⟩)

/-- Witness fixture: a small valid form-data object. -/
def wFd : Json := Json.obj [("a", Json.str "x")]

/-- Witness fixture: the submission the eviction witness inserts. -/
def wNew : Submission := ⟨"b", wFd, 10000⟩

/-- Witness fixture: a 100000-character string. -/
def bigString : String := String.mk (List.replicate 100000 'x')

/-- Witness fixture: form data whose serialization exceeds the 100000
character limit. -/
def bigFd : Json := Json.obj [("a", Json.str bigString)]

end WebhookService

/-! ## Theorems -/

namespace AmpValidator

/-- The phase after the format and freshness guards can produce a
verification result or a validation error, but never the timestamp
rejection. -/
theorem keyPhase_result_ne_timestampExpired (st : ValidatorState) (now : Int)
    (fetch : FetchOutcome) (verify : String → String → List Nat → Bool)
    (body timestamp : String) (sig : List Nat) :
    (keyPhase st now fetch verify body timestamp sig).result ≠ .timestampExpired := by
  unfold keyPhase
  cases h : ensurePublicKeys st now fetch with
  | error msg => simp
  | ok p =>
    rcases hv : firstVerifying verify (timestamp ++ body) sig p.1.publicKeys with ⟨_ | k, n⟩ <;>
      simp [hv]

/-- C7: a signature header that is absent (empty) or lacks the
`rsa-sha256=` prefix makes `validateSignature` return the format-error
result with the state untouched, no outbound key fetch attempted and zero
cryptographic verify calls. -/
theorem validateSignature_bad_format_rejected (st : ValidatorState) (now : Int)
    (fetch : FetchOutcome) (verify : String → String → List Nat → Bool)
    (body signature timestamp : String)
    (h : signature = "" ∨ strStartsWith signature "rsa-sha256=" = false) :
    validateSignature st now fetch verify body signature timestamp =
      { result := .invalidFormat, state := st, fetched := false, verifyAttempts := 0 } := by
  unfold validateSignature
  rw [if_pos]
  rcases h with h | h
  · exact Or.inl h
  · exact Or.inr (by simp [h])

/-- Witness for C7 at the concrete header `sha1=AA`. -/
theorem validateSignature_bad_format_rejected_witness :
    (("sha1=AA" : String) = "" ∨ strStartsWith "sha1=AA" "rsa-sha256=" = false) ∧
    validateSignature ⟨[], 0⟩ 0 (.success []) (fun _ _ _ => true) "b" "sha1=AA" "0" =
      { result := .invalidFormat, state := ⟨[], 0⟩, fetched := false, verifyAttempts := 0 } :=
  ⟨Or.inr (by decide),
    validateSignature_bad_format_rejected _ _ _ _ _ _ _ (Or.inr (by decide))⟩

/-- C6: a numeric timestamp whose value (converted to milliseconds) differs
from the clock by more than the five-minute window makes
`validateSignature` return the timestamp rejection, for every key state,
fetch outcome and verification oracle. -/
theorem validateSignature_stale_timestamp_rejected (st : ValidatorState) (now : Int)
    (fetch : FetchOutcome) (verify : String → String → List Nat → Bool)
    (body signature timestamp : String) (n : Int)
    (hs : ¬ (signature = "" ∨ strStartsWith signature "rsa-sha256=" = false))
    (hp : jsParseInt timestamp = some n)
    (hw : maxTimeDiff < |now - n * 1000|) :
    (validateSignature st now fetch verify body signature timestamp).result =
      .timestampExpired := by
  unfold validateSignature
  rw [if_neg, if_pos]
  · simp [jsGtNaN, hp, hw]
  · push_neg at hs
    rintro (h | h)
    · exact hs.1 h
    · exact absurd h (by simp [hs.2])

/-- Witness for C6: timestamp `1` against clock time `1000000` ms. -/
theorem validateSignature_stale_timestamp_rejected_witness :
    (¬ (("rsa-sha256=AA" : String) = "" ∨
        strStartsWith "rsa-sha256=AA" "rsa-sha256=" = false)) ∧
    jsParseInt "1" = some 1 ∧ maxTimeDiff < |(1000000 : Int) - 1 * 1000| ∧
    (validateSignature ⟨[], 0⟩ 1000000 (.success []) (fun _ _ _ => true)
        "b" "rsa-sha256=AA" "1").result = .timestampExpired :=
  ⟨by decide, by decide, by decide,
    validateSignature_stale_timestamp_rejected _ _ _ _ _ _ _ 1
      (by decide) (by decide) (by decide)⟩

/-- C9: a timestamp that `parseInt` cannot parse (NaN) does not trigger the
freshness rejection — the NaN difference fails the `>` comparison — and the
run proceeds to the key phase (key refresh, lookup and signature checks) as
if the timestamp were fresh. -/
theorem validateSignature_nan_timestamp_passes (st : ValidatorState) (now : Int)
    (fetch : FetchOutcome) (verify : String → String → List Nat → Bool)
    (body signature timestamp : String)
    (hs : ¬ (signature = "" ∨ strStartsWith signature "rsa-sha256=" = false))
    (hp : jsParseInt timestamp = none) :
    validateSignature st now fetch verify body signature timestamp =
      keyPhase st now fetch verify body timestamp (b64Decode (strDrop signature 11)) ∧
    (validateSignature st now fetch verify body signature timestamp).result ≠
      .timestampExpired := by
  have heq : validateSignature st now fetch verify body signature timestamp =
      keyPhase st now fetch verify body timestamp (b64Decode (strDrop signature 11)) := by
    unfold validateSignature
    rw [if_neg ?hneg, if_neg]
    case hneg =>
      push_neg at hs
      rintro (h | h)
      · exact hs.1 h
      · exact absurd h (by simp [hs.2])
    · simp [jsGtNaN, hp]
  exact ⟨heq, heq ▸ keyPhase_result_ne_timestampExpired _ _ _ _ _ _ _⟩

/-- Witness for C9 at the unparsable timestamp `xyz`. -/
theorem validateSignature_nan_timestamp_passes_witness :
    (¬ (("rsa-sha256=AA" : String) = "" ∨
        strStartsWith "rsa-sha256=AA" "rsa-sha256=" = false)) ∧
    jsParseInt "xyz" = none ∧
    (validateSignature ⟨[("k", "p")], 5⟩ 10 (.success []) (fun _ _ _ => false)
        "b" "rsa-sha256=AA" "xyz" =
      keyPhase ⟨[("k", "p")], 5⟩ 10 (.success []) (fun _ _ _ => false)
        "b" "xyz" (b64Decode (strDrop "rsa-sha256=AA" 11)) ∧
    (validateSignature ⟨[("k", "p")], 5⟩ 10 (.success []) (fun _ _ _ => false)
        "b" "rsa-sha256=AA" "xyz").result ≠ .timestampExpired) :=
  ⟨by decide, by decide,
    validateSignature_nan_timestamp_passes _ _ _ _ _ _ _ (by decide) (by decide)⟩

end AmpValidator

namespace AmpValidator

/-- C3 counterexample: with an empty key map, a well-formed header and a
fresh timestamp, a key fetch that succeeds but yields zero usable keys
leaves the snapshot empty, and `validateSignature` falls through to the
generic all-keys-failed result (the source's `SignatureInvalid` message),
not a distinguished key-unavailable failure. -/
theorem emptySnapshot_generic_failure_cex :
    (validateSignature ⟨[], 0⟩ 0 (.success []) (fun _ _ _ => true)
        "b" "rsa-sha256=AA" "0").state.publicKeys = [] ∧
    (validateSignature ⟨[], 0⟩ 0 (.success []) (fun _ _ _ => true)
        "b" "rsa-sha256=AA" "0").result = .allKeysFailed :=
  ⟨rfl, rfl⟩

/-- C3 as amended: with an empty key map, a well-formed header and a fresh
timestamp, `validateSignature` returns the distinguished thrown-error
result (the `Cannot validate AMP signatures` message), different from the
generic all-keys-failed result, exactly when the key fetch itself fails;
an empty snapshot surviving a successful fetch instead produces the
generic result. -/
theorem emptySnapshot_failed_fetch_distinguished (st : ValidatorState) (now : Int)
    (msg : String) (verify : String → String → List Nat → Bool)
    (body signature timestamp : String) (n : Int)
    (hs : ¬ (signature = "" ∨ strStartsWith signature "rsa-sha256=" = false))
    (hp : jsParseInt timestamp = some n)
    (hw : |now - n * 1000| ≤ maxTimeDiff)
    (hempty : st.publicKeys = []) :
    (validateSignature st now (.fail msg) verify body signature timestamp).result =
      .validationError ("Validation error: Cannot validate AMP signatures: " ++ msg) ∧
    (validateSignature st now (.fail msg) verify body signature timestamp).result ≠
      .allKeysFailed := by
  unfold validateSignature
  rw [if_neg ?hneg, if_neg ?hfresh]
  case hneg =>
    push_neg at hs
    rintro (h | h)
    · exact hs.1 h
    · exact absurd h (by simp [hs.2])
  case hfresh =>
    simp [hp, jsGtNaN, not_lt, hw]
  · unfold keyPhase ensurePublicKeys
    rw [hempty]
    simp
    rw [← String.append_assoc]
    congr 1

/-- Witness for the amended C3 at a concrete failed fetch. -/
theorem emptySnapshot_failed_fetch_distinguished_witness :
    (¬ (("rsa-sha256=AA" : String) = "" ∨
        strStartsWith "rsa-sha256=AA" "rsa-sha256=" = false)) ∧
    jsParseInt "0" = some 0 ∧ |(0 : Int) - 0 * 1000| ≤ maxTimeDiff ∧
    (⟨[], 0⟩ : ValidatorState).publicKeys = [] ∧
    ((validateSignature ⟨[], 0⟩ 0 (.fail "network down") (fun _ _ _ => true)
        "b" "rsa-sha256=AA" "0").result =
      .validationError ("Validation error: Cannot validate AMP signatures: " ++
        "network down") ∧
    (validateSignature ⟨[], 0⟩ 0 (.fail "network down") (fun _ _ _ => true)
        "b" "rsa-sha256=AA" "0").result ≠ .allKeysFailed) :=
  ⟨by decide, by decide, by decide, rfl,
    emptySnapshot_failed_fetch_distinguished _ _ _ _ _ _ _ 0
      (by decide) (by decide) (by decide) rfl⟩

/-- C8 counterexample: the claim that any schedule of two concurrent
stale `ensurePublicKeys` callers performs at most one outbound fetch is
false — the alternating schedule performs two. -/
theorem concurrent_refresh_not_single_flight_cex :
    ¬ (∀ sched : List Bool,
        (runSchedule KEY_CACHE_TTL 3 sched staleStart).cache.fetchCount ≤ 1) := by
  intro h
  exact absurd (h [false, true, false, true]) (by decide)

/-- C8 as amended: there is no single-flight guard — when both callers
observe the stale cache before either refresh completes, each issues its
own outbound fetch (two fetches for two callers), while under sequential
execution the second caller sees the refreshed cache and fetches nothing
(one fetch in total). -/
theorem concurrent_refresh_fetch_counts :
    (runSchedule KEY_CACHE_TTL 3 [false, true, false, true] staleStart).cache.fetchCount = 2 ∧
    (runSchedule KEY_CACHE_TTL 3 [false, false, true, true] staleStart).cache.fetchCount = 1 :=
  ⟨rfl, rfl⟩

end AmpValidator

namespace AmpValidator

/-- As long as the length stays below `2^31`, the ToInt32 coercions in the
`while` loop are the identity and the loop produces exactly the minimal
big-endian base-256 digits. -/
theorem lengthBytes_eq_digits (n : Nat) (hn : n < 2 ^ 31) :
    lengthBytes n = (Nat.digits 256 n).reverse := by
  induction n using Nat.strong_induction_on with
  | _ n ih =>
    unfold lengthBytes lengthBytesLoop
    by_cases h : n = 0
    · simp [h]
    · rw [dif_pos (by exact_mod_cast Nat.pos_of_ne_zero h)]
      have hto : toInt32 (n : Int) = (n : Int) := by
        simp only [toInt32]
        have hm : (n : Int) % 4294967296 = (n : Int) := by omega
        rw [hm, if_pos (by omega)]
      have hsh : jsShr8 (n : Int) = ((n / 256 : Nat) : Int) := by
        simp only [jsShr8, hto, Int.fdiv_eq_ediv _ (by norm_num : (0 : Int) ≤ 256)]
        omega
      have han : (jsAnd255 (n : Int)).toNat = n % 256 := by
        simp only [jsAnd255, hto]
        omega
      have hdivlt : n / 256 < n := Nat.div_lt_self (Nat.pos_of_ne_zero h) (by norm_num)
      have hxih := ih (n / 256) hdivlt (lt_of_le_of_lt (Nat.div_le_self _ _) hn)
      rw [hsh, han]
      rw [show lengthBytesLoop ((n / 256 : Nat) : Int) = lengthBytes (n / 256) from rfl]
      rw [hxih, Nat.digits_def' (by norm_num : (1 : Nat) < 256) (Nat.pos_of_ne_zero h)]
      simp

/-- At `2^31` the loop wraps: ToInt32 turns the value negative, the shift
stays negative and the loop stops after emitting the single byte `0x00`
(so `encodeLength` would return `[0x81, 0x00]` there, not the spec
encoding — the bound in `lengthBytes_eq_digits` is tight). -/
theorem lengthBytes_wraps_at_2_pow_31 : lengthBytes (2 ^ 31) = [0] := by
  unfold lengthBytes lengthBytesLoop
  rw [dif_pos (by norm_num)]
  have hsh : jsShr8 ((2 ^ 31 : Nat) : Int) = -8388608 := by
    simp only [jsShr8, toInt32]
    norm_num
    rw [Int.fdiv_eq_ediv _ (by norm_num : (0 : Int) ≤ 256)]
    decide
  have han : (jsAnd255 ((2 ^ 31 : Nat) : Int)).toNat = 0 := by
    simp only [jsAnd255, toInt32]
    norm_num
  rw [hsh, han]
  unfold lengthBytesLoop
  rw [dif_neg (by norm_num)]
  rfl

/-- Setting the high bit via bitwise or coincides with addition whenever the
low seven bits hold the whole operand. -/
theorem lor128_eq_add {k : Nat} (hk : k < 128) : 128 ||| k = 128 + k := by
  revert k
  decide

/-- The base-256 digit count is bounded by the exponent of any power-of-256
bound. -/
theorem digits256_len_le {k n : Nat} (h : n < 256 ^ k) :
    (Nat.digits 256 n).length ≤ k := by
  induction k generalizing n with
  | zero =>
    simp at h
    simp [h]
  | succ k ih =>
    by_cases hn : n = 0
    · simp [hn]
    · rw [Nat.digits_def' (by norm_num : (1 : Nat) < 256) (Nat.pos_of_ne_zero hn)]
      have hdiv : n / 256 < 256 ^ k := by
        rw [Nat.div_lt_iff_lt_mul (by norm_num)]
        calc n < 256 ^ (k + 1) := h
        _ = 256 ^ k * 256 := by ring
      simpa using Nat.succ_le_succ (ih hdiv)

/-- The source's length encoding equals the spec's length-encoding rule for
every length below `2^31`, the range on which the ToInt32-coerced loop
arithmetic is exact. -/
theorem encodeLength_eq_spec {n : Nat} (h : n < 2 ^ 31) :
    encodeLength n = specEncodeLength n := by
  unfold encodeLength specEncodeLength
  by_cases hs : n < 128
  · simp [hs]
  · rw [if_neg hs, if_neg hs]
    have heq : specBigEndian n = lengthBytes n := by
      rw [specBigEndian, ← lengthBytes_eq_digits n h]
    rw [← heq]
    have hd : (specBigEndian n).length ≤ 4 := by
      rw [specBigEndian, List.length_reverse]
      exact digits256_len_le (lt_trans h (by norm_num))
    rw [lor128_eq_add (lt_of_le_of_lt hd (by norm_num))]

/-- C2: for every non-empty byte string short enough that the 32-bit
arithmetic of the source's length loop is exact (length below `2^31`,
more than any Node buffer can hold), the codec's ASN.1 INTEGER encoding is
exactly the spec's: the tag byte `0x02`, then the encoded length per the
spec's length rule, then the value prefixed with exactly one zero byte
when its first byte is `0x80` or greater and the unprefixed value
otherwise — in particular for values whose most significant byte has the
high bit set. -/
theorem createASN1Integer_meets_spec (v : List Nat) (hne : v ≠ [])
    (hlen : v.length + 1 < 2 ^ 31) :
    createASN1Integer v = specASN1Integer v := by
  unfold createASN1Integer specASN1Integer
  by_cases hp : 128 ≤ v.headD 0 <;>
    simp only [hp, if_true, if_false, show (0x80 : Nat) = 128 from rfl] <;>
    rw [encodeLength_eq_spec]
  · simp only [List.length_cons]
    omega
  · omega

/-- Witness for C2 at the two-byte value `0x80 0x01`, whose top bit is
set. -/
theorem createASN1Integer_meets_spec_witness :
    (([0x80, 0x01] : List Nat) ≠ []) ∧
    ([0x80, 0x01] : List Nat).length + 1 < 2 ^ 31 ∧
    createASN1Integer [0x80, 0x01] = specASN1Integer [0x80, 0x01] :=
  ⟨by decide, by norm_num,
    createASN1Integer_meets_spec [0x80, 0x01] (by decide) (by norm_num)⟩

/-- C5 counterexample: the codec does not reject an empty modulus or
exponent — the empty byte string is encoded as the zero-length INTEGER
`0x02 0x00`, and `jwkToPem` on a descriptor with an empty modulus still
produces a complete PEM-armored key rather than any error. -/
theorem codec_accepts_empty_cex :
    createASN1Integer [] = [0x02, 0x00] ∧
    jwkToPem ⟨"key1", "", "AQAB"⟩ =
      "-----BEGIN PUBLIC KEY-----\nMBswDQYJKoZIhvcNAQEBBQADCgAwBwIAAgMBAAE=\n-----END PUBLIC KEY-----" :=
  ⟨rfl, rfl⟩

/-- C5 as amended: the codec never raises a format error; every empty
input byte string is silently encoded as the two bytes `0x02 0x00`. -/
theorem createASN1Integer_empty_encodes_zero_length (v : List Nat) (h : v = []) :
    createASN1Integer v = [0x02, 0x00] := by
  rw [h]
  rfl

/-- Witness for the amended C5 at the empty byte string. -/
theorem createASN1Integer_empty_encodes_zero_length_witness :
    (([] : List Nat) = []) ∧ createASN1Integer [] = [0x02, 0x00] :=
  ⟨rfl, createASN1Integer_empty_encodes_zero_length [] rfl⟩

end AmpValidator

/-- C1: evaluated at the failing request — raw body bytes
`{ "name": "a" }` (note the interior spaces) with timestamp `1000` — the
transport parse of the raw body succeeds, yet the canonical message the
code builds (timestamp concatenated with `JSON.stringify` of the parsed
body) differs from the canonical message the spec requires (timestamp
concatenated with the exact raw bytes), so re-serialization changes the
verified bytes. -/
theorem canonicalMessage_reserializes_body :
    jsonParse "\x7b \"name\": \"a\" \x7d" = some (Json.obj [("name", Json.str "a")]) ∧
    codeCanonicalMessage "1000" (jsonParse "\x7b \"name\": \"a\" \x7d") ≠
      specCanonicalMessage "1000" "\x7b \"name\": \"a\" \x7d" :=
  ⟨rfl, by decide⟩

namespace WebhookService

/-- Objects and arrays are truthy. -/
theorem objectLike_truthy {fd : Json} (h : isObjectLike fd = true) : jsTruthy fd = true := by
  cases fd <;> simp_all [isObjectLike, jsTruthy]

/-- C10: `processSubmission` accepts and stores unchanged any object-like,
non-empty, size-bounded form data that matches the dangerous-content
patterns (the pattern scan only logs and never rejects), while empty form
data fails with the emptiness error and form data serializing to more than
100000 characters fails with the size error. -/
theorem processSubmission_dangerous_content_accepted :
    (∀ (store : List Submission) (id : String) (now : Int) (fd : Json),
        isObjectLike fd = true → jsKeyCount fd ≠ 0 →
        (jsonStringify fd).length ≤ 100000 →
        containsDangerousContent (jsonStringify fd) = true →
        ∃ st2, processSubmission store id now fd = .ok (⟨id, fd, now⟩, st2)) ∧
    (∀ (store : List Submission) (id : String) (now : Int) (fd : Json),
        isObjectLike fd = true → jsKeyCount fd = 0 →
        processSubmission store id now fd =
          .error "Submission processing failed: Form data cannot be empty") ∧
    (∀ (store : List Submission) (id : String) (now : Int) (fd : Json),
        isObjectLike fd = true → jsKeyCount fd ≠ 0 →
        100000 < (jsonStringify fd).length →
        processSubmission store id now fd =
          .error "Submission processing failed: Form data too large") := by
  refine ⟨?_, ?_, ?_⟩
  · intro store id now fd hobj hkey hsz _hdanger
    have hv : validateFormData fd = .ok () := by
      unfold validateFormData
      rw [if_neg (by simp [objectLike_truthy hobj, hobj]), if_neg hkey,
        if_neg (not_lt.mpr hsz)]
    unfold processSubmission
    rw [hv]
    exact ⟨_, rfl⟩
  · intro store id now fd hobj hkey
    have hv : validateFormData fd = .error "Form data cannot be empty" := by
      unfold validateFormData
      rw [if_neg (by simp [objectLike_truthy hobj, hobj]), if_pos hkey]
    unfold processSubmission
    rw [hv]
    rfl
  · intro store id now fd hobj hkey hsz
    have hv : validateFormData fd = .error "Form data too large" := by
      unfold validateFormData
      rw [if_neg (by simp [objectLike_truthy hobj, hobj]), if_neg hkey, if_pos hsz]
    unfold processSubmission
    rw [hv]
    rfl

/-- Escaping a run of `x` characters changes nothing. -/
theorem flatMap_escape_x (n : Nat) :
    (List.replicate n 'x').flatMap jsonEscapeChar = List.replicate n 'x' := by
  induction n with
  | zero => rfl
  | succ k ih =>
    rw [List.replicate_succ, List.flatMap_cons, ih]
    rfl

/-- One-step unfolding of the serializer on a one-member object. -/
theorem stringify_obj_singleton (k : String) (v : Json) :
    jsonStringifyChars (Json.obj [(k, v)]) =
      openBrace :: (jsonQuoteChars k ++ ':' :: jsonStringifyChars v) ++ [closeBrace] := by
  simp [jsonStringifyChars, jsonStringifyObj]

/-- One-step unfolding of the serializer on a string value. -/
theorem stringify_str (s : String) : jsonStringifyChars (Json.str s) = jsonQuoteChars s := by
  simp [jsonStringifyChars]

/-- The serialized length is the character-list length. -/
theorem jsonStringify_length (v : Json) :
    (jsonStringify v).length = (jsonStringifyChars v).length := rfl

/-- Character list of the big witness string. -/
theorem bigString_data : bigString.data = List.replicate 100000 'x' := rfl

/-- Unfolding of the big witness form data. -/
theorem bigFd_def : bigFd = Json.obj [("a", Json.str bigString)] := rfl

/-- Rendering of the key `"a"`. -/
theorem quoteA : jsonQuoteChars "a" = ['\"', 'a', '\"'] := rfl

/-- Shape of a rendered string literal. -/
theorem jqShape (s : String) :
    jsonQuoteChars s = '\"' :: s.data.flatMap jsonEscapeChar ++ ['\"'] := rfl

/-- Rendering of the big witness string. -/
theorem jqBig : jsonQuoteChars bigString = '\"' :: List.replicate 100000 'x' ++ ['\"'] :=
  (jqShape bigString).trans
    ((congrArg (fun l => '\"' :: l.flatMap jsonEscapeChar ++ ['\"']) bigString_data).trans
      (congrArg (fun l => '\"' :: l ++ ['\"']) (flatMap_escape_x 100000)))

/-- Rendering of the big witness form data. -/
theorem bigChars : jsonStringifyChars bigFd =
    openBrace :: (jsonQuoteChars "a" ++ ':' ::
      ('\"' :: List.replicate 100000 'x' ++ ['\"'])) ++ [closeBrace] :=
  (congrArg jsonStringifyChars bigFd_def).trans
    ((stringify_obj_singleton "a" (Json.str bigString)).trans
      ((congrArg (fun x => openBrace :: (jsonQuoteChars "a" ++ ':' :: x) ++ [closeBrace])
        (stringify_str bigString)).trans
        (congrArg (fun x => openBrace :: (jsonQuoteChars "a" ++ ':' :: x) ++ [closeBrace])
          jqBig)))

/-- Length of the rendered one-member object around a string body of any
length. -/
theorem lenShape (l : List Char) :
    (openBrace :: (jsonQuoteChars "a" ++ ':' :: ('\"' :: l ++ ['\"'])) ++
      [closeBrace]).length = l.length + 8 := by
  rw [quoteA]
  simp

/-- The big witness form data serializes to 100008 characters. -/
theorem bigFd_length : (jsonStringify bigFd).length = 100008 :=
  (jsonStringify_length bigFd).trans ((congrArg List.length bigChars).trans
    ((lenShape (List.replicate 100000 'x')).trans
      ((congrArg (fun n => n + 8) (List.length_replicate 100000 'x')).trans rfl)))

/-- Witness for C10: a `javascript:` payload is accepted and stored
unchanged; the empty object and the 100008-character object are
rejected. -/
theorem processSubmission_dangerous_content_accepted_witness :
    (isObjectLike (Json.obj [("u", Json.str "javascript:alert(1)")]) = true ∧
      jsKeyCount (Json.obj [("u", Json.str "javascript:alert(1)")]) ≠ 0 ∧
      (jsonStringify (Json.obj [("u", Json.str "javascript:alert(1)")])).length ≤ 100000 ∧
      containsDangerousContent
        (jsonStringify (Json.obj [("u", Json.str "javascript:alert(1)")])) = true ∧
      ∃ st2, processSubmission [] "s1" 7 (Json.obj [("u", Json.str "javascript:alert(1)")]) =
        .ok (⟨"s1", Json.obj [("u", Json.str "javascript:alert(1)")], 7⟩, st2)) ∧
    (jsKeyCount (Json.obj []) = 0 ∧
      processSubmission [] "s2" 7 (Json.obj []) =
        .error "Submission processing failed: Form data cannot be empty") ∧
    (100000 < (jsonStringify bigFd).length ∧
      processSubmission [] "s3" 7 bigFd =
        .error "Submission processing failed: Form data too large") := by
  have hbig : 100000 < (jsonStringify bigFd).length := by rw [bigFd_length]; norm_num
  refine ⟨⟨rfl, by decide, by decide, by decide,
      processSubmission_dangerous_content_accepted.1 [] "s1" 7 _ rfl (by decide)
        (by decide) (by decide)⟩,
    ⟨rfl, processSubmission_dangerous_content_accepted.2.1 [] "s2" 7 _ rfl rfl⟩,
    ⟨hbig, processSubmission_dangerous_content_accepted.2.2 [] "s3" 7 bigFd rfl
      (by decide) hbig⟩⟩

end WebhookService

namespace WebhookService

/-- C4: inserting into a store already holding exactly 10000 submissions
(distinct ids and timestamps, all older than the new record) succeeds and
leaves exactly 9001 entries: the survivors among the old entries are
precisely those with at least 1000 older entries — so exactly the 1000
oldest by timestamp are removed — and the newly inserted submission is
present. -/
theorem processSubmission_at_capacity (store : List Submission) (id : String)
    (now : Int) (fd : Json)
    (hlen : store.length = 10000)
    (hids : (store.map Submission.id).Nodup)
    (hidnew : id ∉ store.map Submission.id)
    (hts : (store.map Submission.timestamp).Nodup)
    (htnow : ∀ s ∈ store, s.timestamp < now)
    (hfd : validateFormData fd = .ok ()) :
    ∃ st2, processSubmission store id now fd = .ok (⟨id, fd, now⟩, st2) ∧
      st2.length = 9001 ∧
      (⟨id, fd, now⟩ : Submission) ∈ st2 ∧
      (∀ s : Submission, s ∈ st2 ↔
        ((s ∈ store ∧ 1000 ≤ (store.filter
            (fun t => decide (t.timestamp < s.timestamp))).length)
          ∨ s = ⟨id, fd, now⟩)) := by
  classical
  set newSub : Submission := ⟨id, fd, now⟩ with hnewdef
  set L := store ++ [newSub] with hL
  have hany : store.any (fun s => s.id = newSub.id) = false := by
    simp only [List.any_eq_false, decide_eq_true_eq]
    intro s hs heq
    exact hidnew (heq ▸ List.mem_map_of_mem Submission.id hs)
  have hms : mapSet store newSub = L := by
    unfold mapSet
    rw [hany]
    simp
  have hlen1 : L.length = 10001 := by simp [hL, hlen]
  have hps : processSubmission store id now fd = .ok (newSub, cleanupOldSubmissions L) := by
    unfold processSubmission
    rw [hfd]
    show Except.ok (newSub,
        if maxSubmissions < (mapSet store newSub).length then
          cleanupOldSubmissions (mapSet store newSub)
        else mapSet store newSub) = _
    rw [hms, hlen1]
    norm_num [maxSubmissions]
  set sorted := List.insertionSort byTimestamp L with hsorteddef
  have hperm : List.Perm sorted L := List.perm_insertionSort _ _
  have hsorted : List.Sorted byTimestamp sorted := List.sorted_insertionSort _ _
  have hlensorted : sorted.length = 10001 := hperm.length_eq.trans hlen1
  have hidsL : (L.map Submission.id).Nodup := by
    rw [hL]
    simp only [List.map_append, List.map_cons, List.map_nil]
    rw [List.nodup_append]
    exact ⟨hids, List.nodup_singleton _, by simpa using hidnew⟩
  have htsL : (L.map Submission.timestamp).Nodup := by
    rw [hL]
    simp only [List.map_append, List.map_cons, List.map_nil]
    rw [List.nodup_append]
    refine ⟨hts, List.nodup_singleton _, ?_⟩
    intro t htmem
    rcases List.mem_map.mp htmem with ⟨s, hs, rfl⟩
    simp only [List.mem_singleton]
    exact fun hEq => absurd (hEq ▸ htnow s hs) (lt_irrefl _)
  have hndL : L.Nodup := List.Nodup.of_map _ hidsL
  have hndS : sorted.Nodup := hperm.nodup_iff.mpr hndL
  have hpairNe : sorted.Pairwise (fun a b => a.timestamp ≠ b.timestamp) := by
    have hmap : L.Pairwise (fun a b => a.timestamp ≠ b.timestamp) :=
      List.pairwise_map.mp htsL
    exact (hperm.pairwise_iff (fun hab => Ne.symm hab)).mpr hmap
  have hlt : sorted.Pairwise (fun a b => a.timestamp < b.timestamp) :=
    (hsorted.and hpairNe).imp (fun h => lt_of_le_of_ne h.1 h.2)
  set A := sorted.take 1000 with hA
  set B := sorted.drop 1000 with hB
  have hAB : A ++ B = sorted := List.take_append_drop _ _
  have hcross : ∀ a ∈ A, ∀ b ∈ B, a.timestamp < b.timestamp := by
    have h2 : (A ++ B).Pairwise (fun a b => a.timestamp < b.timestamp) := by
      rw [hAB]; exact hlt
    exact (List.pairwise_append.mp h2).2.2
  have hdisj : ∀ a ∈ A, a ∉ B := by
    have h2 : (A ++ B).Nodup := by rw [hAB]; exact hndS
    exact fun a ha hb => (List.disjoint_of_nodup_append h2) ha hb
  have hinj : ∀ a ∈ L, ∀ b ∈ L, a.id = b.id → a = b :=
    List.inj_on_of_nodup_map hidsL
  have hAsub : ∀ a ∈ A, a ∈ L := fun a ha => hperm.mem_iff.mp (List.mem_of_mem_take ha)
  have hBsub : ∀ b ∈ B, b ∈ L := fun b hb => hperm.mem_iff.mp (List.mem_of_mem_drop hb)
  have hAlen : A.length = 1000 := by
    rw [hA, List.length_take, hlensorted]
    omega
  set p : Submission → Bool := fun s => decide (s.id ∉ A.map Submission.id) with hp
  have hclean : cleanupOldSubmissions L = L.filter p := by
    unfold cleanupOldSubmissions
    have h10 : jsFloorTenth L.length = 1000 := by
      rw [hlen1]
      decide
    rw [h10]
  have hAfilter : A.filter p = [] := by
    refine List.filter_eq_nil_iff.mpr (fun a ha => ?_)
    simp only [hp, decide_eq_true_eq, not_not]
    exact List.mem_map_of_mem _ ha
  have hBfilter : B.filter p = B := by
    refine List.filter_eq_self.mpr (fun b hb => ?_)
    simp only [hp, decide_eq_true_eq]
    intro hmem
    rcases List.mem_map.mp hmem with ⟨a, haA, haid⟩
    have heq : a = b := hinj a (hAsub a haA) b (hBsub b hb) haid
    exact hdisj a haA (heq ▸ hb)
  have hpermFilter : List.Perm (L.filter p) B := by
    have h1 : List.Perm (L.filter p) (sorted.filter p) := (hperm.symm).filter p
    have h2 : sorted.filter p = B := by
      rw [← hAB, List.filter_append, hAfilter, hBfilter, List.nil_append]
    exact h2 ▸ h1
  have hlenB : B.length = 9001 := by
    rw [hB, List.length_drop, hlensorted]
  have hnewL : newSub ∈ L := by
    rw [hL]
    exact List.mem_append_right _ (List.mem_singleton_self _)
  have hmemS : newSub ∈ A ++ B := by rw [hAB]; exact hperm.mem_iff.mpr hnewL
  have hnewB : newSub ∈ B := by
    rcases List.mem_append.mp hmemS with hInA | hInB
    · exfalso
      have hBne : B ≠ [] := by
        intro h0
        rw [h0] at hlenB
        simp at hlenB
      obtain ⟨b, hb⟩ := List.exists_mem_of_ne_nil B hBne
      have hlt' := hcross newSub hInA b hb
      rcases List.mem_append.mp (hL ▸ hBsub b hb) with hbstore | hbnew
      · have hbn : b.timestamp < now := htnow b hbstore
        simp only [hnewdef] at hlt'
        omega
      · rw [List.mem_singleton] at hbnew
        rw [hbnew] at hb
        exact hdisj newSub hInA hb
    · exact hInB
  set q : Submission → Submission → Bool :=
    fun s t => decide (t.timestamp < s.timestamp) with hq
  have hfilterL : ∀ s ∈ store, L.filter (q s) = store.filter (q s) := by
    intro s hs
    rw [hL, List.filter_append]
    have hone : List.filter (q s) [newSub] = [] := by
      simp only [List.filter, hq, hnewdef]
      have hlt2 : ¬ (now < s.timestamp) := not_lt.mpr (le_of_lt (htnow s hs))
      simp [hlt2]
    rw [hone, List.append_nil]
  have hcount : ∀ s ∈ store,
      (store.filter (q s)).length = (sorted.filter (q s)).length := by
    intro s hs
    rw [← hfilterL s hs]
    exact ((hperm.symm).filter _).length_eq
  have hforward : ∀ s ∈ B, s ∈ store → 1000 ≤ (store.filter (q s)).length := by
    intro s hsB hsStore
    rw [hcount s hsStore, ← hAB, List.filter_append, List.length_append]
    have hAf : A.filter (q s) = A :=
      List.filter_eq_self.mpr (fun a ha => decide_eq_true (hcross a ha s hsB))
    rw [hAf, hAlen]
    omega
  have hbackward : ∀ s ∈ A, s ∈ store → (store.filter (q s)).length < 1000 := by
    intro s hsA hsStore
    rw [hcount s hsStore, ← hAB, List.filter_append, List.length_append]
    have hB0 : B.filter (q s) = [] := by
      refine List.filter_eq_nil_iff.mpr (fun b hb => ?_)
      simp only [hq, decide_eq_true_eq]
      exact not_lt.mpr (le_of_lt (hcross s hsA b hb))
    have hAlt : (A.filter (q s)).length < A.length := by
      refine List.length_filter_lt_length_iff_exists.mpr ⟨s, hsA, ?_⟩
      simp [hq]
    rw [hB0]
    simp only [List.length_nil, Nat.add_zero]
    omega
  refine ⟨L.filter p, ?_, ?_, ?_, ?_⟩
  · rw [hps, hclean]
  · exact hpermFilter.length_eq.trans hlenB
  · exact hpermFilter.mem_iff.mpr hnewB
  · intro s
    rw [hpermFilter.mem_iff]
    constructor
    · intro hsB
      rcases List.mem_append.mp (hL ▸ hBsub s hsB) with hstore | hnew'
      · exact Or.inl ⟨hstore, hforward s hsB hstore⟩
      · exact Or.inr (List.mem_singleton.mp hnew')
    · rintro (⟨hstore, hrank⟩ | rfl)
      · have hsL : s ∈ L := by rw [hL]; exact List.mem_append_left _ hstore
        rcases List.mem_append.mp ((hAB ▸ hperm.mem_iff.mpr hsL) : s ∈ A ++ B) with
          hInA | hInB
        · exact absurd hrank (not_le.mpr (hbackward s hInA hstore))
        · exact hInB
      · exact hnewB

end WebhookService

namespace WebhookService

/-- The all-`a` id strings are injective in their length. -/
theorem wId_injective : Function.Injective wId := by
  intro i j h
  have hlen := congrArg (fun s => s.data.length) h
  simpa [wId] using hlen

/-- The prefilled store has the expected size. -/
theorem wStore_length (n : Nat) : (wStore n).length = n := by
  simp [wStore]

/-- The prefilled store has distinct ids. -/
theorem wStore_ids (n : Nat) : ((wStore n).map Submission.id).Nodup := by
  rw [wStore, List.map_map]
  refine List.Nodup.map ?_ (List.nodup_range n)
  intro i j h
  exact wId_injective h

/-- The id `b` does not occur in the prefilled store. -/
theorem wStore_b_fresh (n : Nat) : "b" ∉ (wStore n).map Submission.id := by
  rw [wStore, List.map_map]
  intro hmem
  rcases List.mem_map.mp hmem with ⟨i, _, hEq⟩
  have hdata := congrArg String.data hEq
  cases i with
  | zero => simp [wId] at hdata
  | succ k =>
    simp only [Function.comp, wId, List.replicate] at hdata
    exact absurd (List.head_eq_of_cons_eq hdata) (by decide)

/-- The prefilled store has distinct timestamps. -/
theorem wStore_ts (n : Nat) : ((wStore n).map Submission.timestamp).Nodup := by
  rw [wStore, List.map_map]
  refine List.Nodup.map ?_ (List.nodup_range n)
  intro i j h
  have h' : (i : Int) = (j : Int) := h
  exact_mod_cast h'

/-- Every prefilled timestamp is below `n`. -/
theorem wStore_ts_lt (n : Nat) : ∀ s ∈ wStore n, s.timestamp < (n : Int) := by
  intro s hs
  rcases List.mem_map.mp hs with ⟨i, hi, rfl⟩
  show (i : Int) < (n : Int)
  exact_mod_cast List.mem_range.mp hi

/-- Witness for C4: the concrete 10000-entry store with ids `a…a` and
timestamps `0…9999`, inserting a fresh submission at time 10000. -/
theorem processSubmission_at_capacity_witness :
    (wStore 10000).length = 10000 ∧
    ((wStore 10000).map Submission.id).Nodup ∧
    "b" ∉ (wStore 10000).map Submission.id ∧
    ((wStore 10000).map Submission.timestamp).Nodup ∧
    (∀ s ∈ wStore 10000, s.timestamp < (10000 : Int)) ∧
    validateFormData wFd = .ok () ∧
    (∃ st2, processSubmission (wStore 10000) "b" 10000 wFd = .ok (wNew, st2) ∧
      st2.length = 9001 ∧
      wNew ∈ st2 ∧
      (∀ s : Submission, s ∈ st2 ↔
        ((s ∈ wStore 10000 ∧
            1000 ≤ ((wStore 10000).filter
              (fun t => decide (t.timestamp < s.timestamp))).length) ∨ s = wNew))) := by
  have hlt : ∀ s ∈ wStore 10000, s.timestamp < (10000 : Int) := by
    intro s hs
    exact_mod_cast wStore_ts_lt 10000 s hs
  exact ⟨wStore_length 10000, wStore_ids 10000, wStore_b_fresh 10000,
    wStore_ts 10000, hlt, rfl,
    processSubmission_at_capacity (wStore 10000) "b" 10000 wFd (wStore_length 10000)
      (wStore_ids 10000) (wStore_b_fresh 10000) (wStore_ts 10000) hlt rfl⟩

end WebhookService
